import Mathlib

/-!
Shallow embedding of `src/lambda_function.py`, a three-stage static-site
pipeline: fetch spreadsheet tabs to csv files, render an HTML page from them,
upload the rendered directory to an object-storage bucket.

External collaborators (spreadsheet client, templating engine, storage SDK)
are modelled as parameters: the fetch outcome, the template-render function
and the bucket are inputs; everything the Python module itself computes
(filename parsing, sorting, lookup tables, directory walks, sequencing) is
translated directly.
-/

namespace StayHome

/-! Fixed tables and texts from the top of the module. -/

def IGNORED_FILES : List String := ["template.html", ".DS_Store"]

def LISTS_MAPPING : List (String × String) :=
  [("learning_resources", "&#128218; Learning Resources"),
   ("productivity", "&#128187; Productivity"),
   ("health", "&#x1F3CB; Health & Fitness"),
   ("entertainment", "&#x1F4FA; Entertainment")]

def CONTENT_TYPE_MAPPING : List (String × String) :=
  [(".css", "text/css"),
   (".html", "text/html"),
   (".jpg", "image/jpeg"),
   (".xml", "text/xml")]

def INTRO_TEXT : String :=
  "\n<b>COVID-19 continues disrupting lives.</b> Some are going through severe health situations. Others have lost their jobs. And by now, many of us are quarantined in our homes.\n<br><br>\nLife may feel tough now, but don\x27t despair. This can be a time to learn new things, get better at your craft or enjoy (virtual) time with friends and family. \n<br><br>\n<b>This page is a list of high-quality resources available for free or cheaper than usual due to the COVID-19:</b>\n<a href=\"#learning_resources\"> Learning Resources</a>,\n<a href=\"#health\"> Health & Fitness</a>,\n<a href=\"#productivity\"> Productivity</a>, and\n<a href=\"#entertainment\"> Entertainment</a>.\n<br><br>\nIf you like them, use them or share them with others. If you know of something that is not here, <a href=\"https://docs.google.com/forms/d/e/1FAIpQLSf6qLcvJGWS3VltKV99sO0KhBxmWxb0sdIpVu93OolL42s7rQ/viewform?usp=sf_link\">please let me know</a>.\n"

def META_CONTENT : String :=
  "\nA list of +50 high-quality resources available for free or cheaper than usual due to the COVID-19\n"

/-- Python `dict.get(k, d)` over an association list (insertion order, first
match wins, as for the literal dicts in the module). -/
def dictGet (m : List (String × String)) (k d : String) : String :=
  match m.find? (fun p => p.1 == k) with
  | some p => p.2
  | none => d

/-! Regex used by `generate_site`:
`re.search(r"[0-9]_(.*?)\.csv", csv_file.name).group(1)`.
`re.search` takes the leftmost starting position that matches; `(.*?)` is
non-greedy, so at that position the group is the shortest one followed by a
literal `.csv`; `.` does not match a newline. A failed search returns `None`
and `.group(1)` then raises `AttributeError`, modelled as `none`. -/

/-- Test for the literal `.csv` at the head of the character list. -/
def looksCsv : List Char → Bool
  | a :: b :: c :: d :: _ => a == '.' && b == 'c' && c == 's' && d == 'v'
  | _ => false

/-- Group matched by the non-greedy `(.*?)\.csv`: the shortest prefix of
non-newline characters followed by `.csv`, or `none` when there is none. -/
def csvGroup : List Char → Option (List Char)
  | [] => none
  | c :: cs =>
    if looksCsv (c :: cs) then some []
    else if c = '\n' then none else (csvGroup cs).map (c :: ·)

/-- Attempt to match `[0-9]_(.*?)\.csv` at the current position. -/
def matchAt : List Char → Option (List Char)
  | c :: '_' :: cs => if c.isDigit then csvGroup cs else none
  | _ => none

/-- `re.search`: try each starting position from the left, returning group 1 of
the first position that matches. -/
def searchKey : List Char → Option (List Char)
  | [] => none
  | c :: cs =>
    match matchAt (c :: cs) with
    | some g => some g
    | none => searchKey cs

/-- Category-key extraction from a csv filename; `none` is the fatal
`AttributeError` path. -/
def extractKey (name : String) : Option String :=
  (searchKey name.data).map String.mk

/-- Filename shape stated by the spec: one digit, an underscore, the key, then
`.csv` (the key being the whole middle part). -/
def wellFormedCsvName (name : String) : Bool :=
  match name.data with
  | d :: '_' :: rest => d.isDigit && rest.reverse.take 4 == ['v', 's', 'c', '.']
  | _ => false

/-- True when the list does not contain `.csv` as an infix. -/
def noCsvSub : List Char → Bool
  | [] => true
  | c :: cs => !looksCsv (c :: cs) && noCsvSub cs

/-- `pathlib.PurePath.suffix`: the extension starting at the last dot, empty
when the last dot is missing, is the first character, or is the last
character. -/
def lastDotIdx : List Char → Option Nat
  | [] => none
  | c :: cs =>
    match lastDotIdx cs with
    | some j => some (j + 1)
    | none => if c = '.' then some 0 else none

def pathSuffix (name : String) : String :=
  match lastDotIdx name.data with
  | some i => if 0 < i && i + 1 < name.data.length then String.mk (name.data.drop i) else ""
  | none => ""

/-! ### Data Fetcher (`download_sheets`) -/

/-- One worksheet of the workbook: its tab title and the full grid of cell
values returned by `get_all_values()` (header row included). -/
structure Sheet where
  title : String
  values : List (List String)
deriving DecidableEq

/-- One file in the local data directory: its filename and the grid written to
it by `csv.writer(f).writerows(sheet_values)`. -/
structure DataFile where
  name : String
  grid : List (List String)
deriving DecidableEq

/-- `open(filename, "w")` then write: replaces a file of the same name,
otherwise adds a new one. -/
def writeFile (d : List DataFile) (f : DataFile) : List DataFile :=
  if d.any (fun g => g.name == f.name) then
    d.map (fun g => if g.name == f.name then f else g)
  else d ++ [f]

/-- `download_sheets`: the data directory is removed and recreated empty, then
for each worksheet a file named `worksheet.title + ".csv"` is written holding
the sheet values. -/
def download_sheets (workbook : List Sheet) : List DataFile :=
  workbook.foldl (fun d ws => writeFile d ⟨ws.title ++ ".csv", ws.values⟩) []

/-! ### Site Renderer (`generate_site`) -/

/-- One row from `csv.DictReader`: header field name paired with the cell
value. -/
abbrev Rec := List (String × String)

/-- `csv.DictReader`: the first row is the header, each later row becomes a
record keyed by the header fields (`dict(zip(fieldnames, row))`; ragged rows,
handled by restkey/restval, do not arise from the fetcher and are not
modelled). -/
def dictReader : List (List String) → List Rec
  | [] => []
  | header :: rows => rows.map (fun r => header.zip r)

/-- One entry of the loop result `lists_all`: the tuple
`(original_name, processed_name, list_ind)`. -/
structure Category where
  key : String
  label : String
  recs : List Rec
deriving DecidableEq

/-- `LISTS_MAPPING.get(original_name, original_name)`. -/
def lookupLabel (k : String) : String := dictGet LISTS_MAPPING k k

/-- Boolean lexicographic comparison on character lists; proved below to agree
with `String` order (Python compares the paths, which share the data-directory
part, so file order is this order on the filenames). -/
def leChars : List Char → List Char → Bool
  | [], _ => true
  | _ :: _, [] => false
  | a :: as, b :: bs => if a = b then leChars as bs else decide (a < b)

/-- The filter `filename.suffix == ".csv"` over the data directory. -/
def csvFiles (data : List DataFile) : List DataFile :=
  data.filter (fun f => pathSuffix f.name == ".csv")

/-- `csv_files.sort()`: ascending lexicographic order of the filenames.
Python sorts stably; a stable sort of a list under a total preorder is unique,
so insertion sort computes the same list. -/
def sortedCsvFiles (data : List DataFile) : List DataFile :=
  (csvFiles data).insertionSort (fun a b => leChars a.name.data b.name.data = true)

/-- Body of the loop over one csv file: extract the key (fatal when the search
fails), look up the display label, parse the rows. -/
def categoryOf (f : DataFile) : Option Category :=
  (extractKey f.name).map (fun k => ⟨k, lookupLabel k, dictReader f.grid⟩)

/-- The loop accumulating `lists_all`; the first filename that the pattern
cannot match aborts the run. -/
def buildLists : List DataFile → Option (List Category)
  | [] => some []
  | f :: fs =>
    match categoryOf f with
    | none => none
    | some c => (buildLists fs).map (c :: ·)

def rendererLists (data : List DataFile) : Option (List Category) :=
  buildLists (sortedCsvFiles data)

/-- A directory entry, as seen by `Path.iterdir()`. -/
inductive FsEntry where
  | file (name content : String)
  | dir (name : String) (entries : List FsEntry)

mutual
def decEqFsEntry : (a b : FsEntry) → Decidable (a = b)
  | .file n c, .file m d =>
    if h1 : n = m then
      if h2 : c = d then isTrue (by rw [h1, h2])
      else isFalse (by intro h; cases h; exact h2 rfl)
    else isFalse (by intro h; cases h; exact h1 rfl)
  | .file _ _, .dir _ _ => isFalse (by intro h; cases h)
  | .dir _ _, .file _ _ => isFalse (by intro h; cases h)
  | .dir n es, .dir m fs =>
    if h1 : n = m then
      match decEqFsEntryList es fs with
      | isTrue h2 => isTrue (by rw [h1, h2])
      | isFalse h2 => isFalse (by intro h; cases h; exact h2 rfl)
    else isFalse (by intro h; cases h; exact h1 rfl)

def decEqFsEntryList : (a b : List FsEntry) → Decidable (a = b)
  | [], [] => isTrue rfl
  | [], _ :: _ => isFalse (by intro h; cases h)
  | _ :: _, [] => isFalse (by intro h; cases h)
  | e :: es, f :: fs =>
    match decEqFsEntry e f with
    | isTrue h1 =>
      match decEqFsEntryList es fs with
      | isTrue h2 => isTrue (by rw [h1, h2])
      | isFalse h2 => isFalse (by intro h; cases h; exact h2 rfl)
    | isFalse h1 => isFalse (by intro h; cases h; exact h1 rfl)
end

instance : DecidableEq FsEntry := decEqFsEntry

def FsEntry.name : FsEntry → String
  | .file n _ => n
  | .dir n _ => n

/-- The copy loop over the template directory: a directory entry is copied by
`shutil.copytree` whatever its name; a non-directory entry is copied unless it
is named `template.html` or `.DS_Store` (the names are written out in this
branch of the source, not taken from `IGNORED_FILES`). -/
def copyTemplateEntries : List FsEntry → List FsEntry
  | [] => []
  | .dir n es :: rest => .dir n es :: copyTemplateEntries rest
  | .file n c :: rest =>
    if n != "template.html" && n != ".DS_Store" then
      .file n c :: copyTemplateEntries rest
    else copyTemplateEntries rest

/-- `template_env.get_template("template.html")`: the template document among
the template-directory entries; its absence is fatal. -/
def getTemplate (tmpl : List FsEntry) : Option String :=
  tmpl.findSome? (fun e =>
    match e with
    | .file n c => if n == "template.html" then some c else none
    | .dir _ _ => none)

/-- The templating collaborator: `template.render(lists=..., intro_text=...,
last_update=..., meta_content=...)` for a given template source. -/
abbrev RenderFn := String → List Category → String → String → String → String

/-- `generate_site`: the site directory is cleared, the template entries are
copied, the template document is loaded, the category list is built from the
sorted csv files, the template is rendered once with the current date, and the
result is written as `index.html`. A missing template document or an
unparseable csv filename aborts the run. -/
def generate_site (render : RenderFn) (tmpl : List FsEntry) (data : List DataFile)
    (currDate : String) : Except String (List FsEntry) :=
  match getTemplate tmpl with
  | none => Except.error "TemplateNotFound: template.html"
  | some t =>
    match rendererLists data with
    | none => Except.error "AttributeError: NoneType object has no attribute group"
    | some ls =>
      Except.ok (copyTemplateEntries tmpl ++
        [FsEntry.file "index.html" (render t ls INTRO_TEXT currDate META_CONTENT)])

/-! ### Publisher (`upload_recursively_to_s3`) -/

/-- Operations of the object-storage collaborator. The source only ever issues
uploads; `delete` is part of the vocabulary so that the absence of deletion is
expressible. -/
inductive S3Op where
  | upload (key contentType body : String)
  | delete (key : String)
deriving DecidableEq

def S3Op.key : S3Op → String
  | .upload k _ _ => k
  | .delete k => k

/-- `CONTENT_TYPE_MAPPING.get(filename.suffix, "application/octet-stream")`. -/
def contentTypeFor (name : String) : String :=
  dictGet CONTENT_TYPE_MAPPING (pathSuffix name) "application/octet-stream"

mutual
/-- `upload_recursively_to_s3` acting on a single directory entry: recurse into
a subdirectory with the prefix extended by its name and a slash; upload a file
not in `IGNORED_FILES` under the key `prefix + filename`. -/
def uploadEntry : FsEntry → String → List S3Op
  | .dir n es, pre => uploadEntries es (pre ++ n ++ "/")
  | .file n c, pre =>
    if n ∈ IGNORED_FILES then []
    else [S3Op.upload (pre ++ n) (contentTypeFor n) c]

/-- The `for filename in dir.iterdir()` loop. -/
def uploadEntries : List FsEntry → String → List S3Op
  | [], _ => []
  | e :: rest, pre => uploadEntry e pre ++ uploadEntries rest pre
end

def upload_recursively_to_s3 (d : List FsEntry) (pre : String) : List S3Op :=
  uploadEntries d pre

mutual
/-- Specification-side enumeration of every file under a root, with its path
relative to the root (directory names accumulated with a slash separator):
`(relative path, filename, content)`. -/
def filesUnder : FsEntry → String → List (String × String × String)
  | .file n c, pre => [(pre ++ n, n, c)]
  | .dir n es, pre => filesUnderList es (pre ++ n ++ "/")

def filesUnderList : List FsEntry → String → List (String × String × String)
  | [], _ => []
  | e :: rest, pre => filesUnder e pre ++ filesUnderList rest pre
end

/-- Remote bucket contents: object key to object body, in creation order. -/
abbrev Bucket := List (String × String)

def getObj (b : Bucket) (k : String) : Option String :=
  (b.find? (fun p => p.1 == k)).map (fun p => p.2)

/-- Effect of one storage operation: an upload creates or overwrites the
object at its key; a delete removes it. -/
def applyOp (b : Bucket) : S3Op → Bucket
  | .upload k _ body =>
    if b.any (fun p => p.1 == k) then b.map (fun p => if p.1 == k then (k, body) else p)
    else b ++ [(k, body)]
  | .delete k => b.filter (fun p => p.1 != k)

def applyOps (b : Bucket) (ops : List S3Op) : Bucket :=
  ops.foldl applyOp b

/-! ### Orchestrator (`build_site`) -/

/-- `build_site`: fetch, render, publish, strictly in sequence; an exception
raised by an earlier stage propagates and aborts the run, so no later stage
runs. The fetch outcome is a parameter: the workbook when the spreadsheet
service succeeds, the raised error otherwise. The result pairs the rendered
site with the uploads performed on it (root call has the empty prefix). -/
def build_site (fetch : Except String (List Sheet)) (render : RenderFn)
    (tmpl : List FsEntry) (currDate : String) :
    Except String (List FsEntry × List S3Op) :=
  match fetch with
  | .error e => .error e
  | .ok wb =>
    match generate_site render tmpl (download_sheets wb) currDate with
    | .error e => .error e
    | .ok site => .ok (site, upload_recursively_to_s3 site "")

/-! ## Helper lemmas -/

theorem lex_cons_lt (a b : Char) (as bs : List Char) :
    List.Lex (· < ·) (b :: bs) (a :: as) ↔ (b < a ∨ (b = a ∧ List.Lex (· < ·) bs as)) := by
  constructor
  · intro h
    cases h with
    | cons h => exact Or.inr ⟨rfl, h⟩
    | rel h => exact Or.inl h
  · rintro (h | ⟨rfl, h⟩)
    · exact List.Lex.rel h
    · exact List.Lex.cons h

theorem leChars_iff : ∀ (x y : List Char), leChars x y = true ↔ x ≤ y
  | [], y => by
    constructor
    · intro _
      rw [← not_lt]
      intro h
      cases h
    · intro _
      rfl
  | a :: as, [] => by
    constructor
    · intro h
      simp [leChars] at h
    · rw [← not_lt]
      intro h
      exact absurd List.Lex.nil h
  | a :: as, b :: bs => by
    have hstep : leChars (a :: as) (b :: bs) =
        if a = b then leChars as bs else decide (a < b) := rfl
    rw [← not_lt]
    show _ ↔ ¬ List.Lex (· < ·) (b :: bs) (a :: as)
    rw [lex_cons_lt, hstep]
    by_cases hab : a = b
    · subst hab
      rw [if_pos rfl]
      have ih := leChars_iff as bs
      rw [← not_lt] at ih
      have hlex : (bs < as) = List.Lex (· < ·) bs as := rfl
      rw [hlex] at ih
      rw [ih]
      constructor
      · intro h hc
        rcases hc with h1 | ⟨_, h2⟩
        · exact lt_irrefl a h1
        · exact h h2
      · intro h hc
        exact h (Or.inr ⟨rfl, hc⟩)
    · rw [if_neg hab]
      simp only [decide_eq_true_eq]
      constructor
      · intro h hc
        rcases hc with h1 | ⟨h2, _⟩
        · exact lt_asymm h h1
        · exact hab h2.symm
      · intro h
        rcases lt_trichotomy a b with h1 | h1 | h1
        · exact h1
        · exact absurd h1 hab
        · exact absurd (Or.inl h1) h

/-- The executable comparison used by `sortedCsvFiles` is exactly the
lexicographic order on strings. -/
theorem leChars_iff_str (x y : String) : leChars x.data y.data = true ↔ x ≤ y := by
  rw [String.le_iff_toList_le]
  exact leChars_iff x.data y.data

theorem dictGet_not_mem (m : List (String × String)) (k d : String)
    (h : ∀ p ∈ m, p.1 ≠ k) : dictGet m k d = d := by
  unfold dictGet
  have hn : m.find? (fun p => p.1 == k) = none := by
    rw [List.find?_eq_none]
    intro p hp
    simp [h p hp]
  rw [hn]

theorem string_append_right_cancel {a b c : String} (h : a ++ c = b ++ c) : a = b := by
  apply String.ext
  have h2 := congrArg String.data h
  rw [String.data_append, String.data_append] at h2
  exact List.append_cancel_right h2

theorem csvGroup_append (key t : List Char) (h1 : noCsvSub key = true)
    (h2 : '\n' ∉ key) :
    csvGroup (key ++ ('.' :: 'c' :: 's' :: 'v' :: t)) = some key := by
  induction key with
  | nil => simp [csvGroup, looksCsv]
  | cons c cs ih =>
    have hparts : looksCsv (c :: cs) = false ∧ noCsvSub cs = true := by
      unfold noCsvSub at h1
      simpa using h1
    have hlook : looksCsv (c :: (cs ++ '.' :: 'c' :: 's' :: 'v' :: t)) = false := by
      rcases cs with _ | ⟨a, _ | ⟨b, _ | ⟨e, rest⟩⟩⟩
      · simp [looksCsv]
      · simp [looksCsv]
      · simp [looksCsv]
      · have := hparts.1
        simp [looksCsv] at this ⊢
        intro ha hb hc
        exact this ha hb hc
    have hnl : c ≠ '\n' := fun hc => h2 (hc ▸ List.mem_cons_self c cs)
    have hnl2 : '\n' ∉ cs := fun hm => h2 (List.mem_cons_of_mem c hm)
    rw [List.cons_append]
    unfold csvGroup
    rw [hlook]
    simp only [Bool.false_eq_true, if_false, if_neg hnl]
    rw [ih hparts.2 hnl2]
    rfl

theorem buildLists_none (fs : List DataFile) (f : DataFile) (hf : f ∈ fs)
    (hc : categoryOf f = none) : buildLists fs = none := by
  induction fs with
  | nil => cases hf
  | cons g rest ih =>
    unfold buildLists
    rcases List.mem_cons.mp hf with rfl | hmem
    · rw [hc]
    · cases hg : categoryOf g with
      | none => rfl
      | some c =>
        rw [ih hmem]
        rfl

theorem buildLists_some : ∀ (fs : List DataFile) (ls : List Category),
    buildLists fs = some ls →
    ls.length = fs.length ∧
      ∀ i (hi : i < fs.length) (hj : i < ls.length),
        categoryOf (fs.get ⟨i, hi⟩) = some (ls.get ⟨i, hj⟩)
  | [], ls, h => by
    simp [buildLists] at h
    subst h
    exact ⟨rfl, fun i hi _ => absurd hi (by simp)⟩
  | f :: fs, ls, h => by
    unfold buildLists at h
    cases hc : categoryOf f with
    | none => rw [hc] at h; cases h
    | some c =>
      rw [hc] at h
      cases hb : buildLists fs with
      | none => rw [hb] at h; cases h
      | some tl =>
        rw [hb] at h
        simp only [Option.map_some', Option.some.injEq] at h
        subst h
        obtain ⟨hlen, hidx⟩ := buildLists_some fs tl hb
        refine ⟨by simp [hlen], ?_⟩
        intro i hi hj
        cases i with
        | zero => simpa using hc
        | succ m => simpa using hidx m (by simpa using hi) (by simpa using hj)

theorem download_sheets_go (wb : List Sheet) (d : List DataFile)
    (hfresh : ∀ ws ∈ wb, ∀ f ∈ d, f.name ≠ ws.title ++ ".csv")
    (hnd : (wb.map Sheet.title).Nodup) :
    wb.foldl (fun d ws => writeFile d ⟨ws.title ++ ".csv", ws.values⟩) d =
      d ++ wb.map (fun ws => ⟨ws.title ++ ".csv", ws.values⟩) := by
  induction wb generalizing d with
  | nil => simp
  | cons ws rest ih =>
    rw [List.foldl_cons]
    have hany : d.any (fun g => g.name == ws.title ++ ".csv") = false := by
      rw [List.any_eq_false]
      intro f hf
      simpa using hfresh ws (List.mem_cons_self ws rest) f hf
    have hw : writeFile d ⟨ws.title ++ ".csv", ws.values⟩ =
        d ++ [⟨ws.title ++ ".csv", ws.values⟩] := by
      unfold writeFile
      rw [hany]
      simp
    rw [hw]
    have hnd2 : (rest.map Sheet.title).Nodup := (List.nodup_cons.mp (by simpa using hnd)).2
    have hhead : ws.title ∉ rest.map Sheet.title := (List.nodup_cons.mp (by simpa using hnd)).1
    have hfresh2 : ∀ ws2 ∈ rest, ∀ f ∈ d ++ [⟨ws.title ++ ".csv", ws.values⟩],
        f.name ≠ ws2.title ++ ".csv" := by
      intro ws2 hws2 f hfm
      rcases List.mem_append.mp hfm with hfd | hfnew
      · exact hfresh ws2 (List.mem_cons_of_mem ws hws2) f hfd
      · have hfeq : f = ⟨ws.title ++ ".csv", ws.values⟩ := by simpa using hfnew
        subst hfeq
        intro hcontra
        have : ws.title = ws2.title := string_append_right_cancel hcontra
        exact hhead (this ▸ List.mem_map_of_mem Sheet.title hws2)
    rw [ih (d ++ [(⟨ws.title ++ ".csv", ws.values⟩ : DataFile)]) hfresh2 hnd2]
    simp

mutual
theorem uploadEntry_eq (e : FsEntry) (pre : String) :
    uploadEntry e pre =
      ((filesUnder e pre).filter (fun f => decide (f.2.1 ∉ IGNORED_FILES))).map
        (fun f => S3Op.upload f.1 (contentTypeFor f.2.1) f.2.2) := by
  cases e with
  | file n c =>
    by_cases h : n ∈ IGNORED_FILES <;> simp [uploadEntry, filesUnder, h]
  | dir n es =>
    simpa [uploadEntry, filesUnder] using uploadEntries_eq es (pre ++ n ++ "/")

theorem uploadEntries_eq (t : List FsEntry) (pre : String) :
    uploadEntries t pre =
      ((filesUnderList t pre).filter (fun f => decide (f.2.1 ∉ IGNORED_FILES))).map
        (fun f => S3Op.upload f.1 (contentTypeFor f.2.1) f.2.2) := by
  cases t with
  | nil => simp [uploadEntries, filesUnderList]
  | cons e rest =>
    simp only [uploadEntries, filesUnderList, List.filter_append, List.map_append]
    rw [uploadEntry_eq e pre, uploadEntries_eq rest pre]
end

theorem getObj_cons (p : String × String) (rest : Bucket) (k : String) :
    getObj (p :: rest) k = if p.1 = k then some p.2 else getObj rest k := by
  unfold getObj
  by_cases h : p.1 = k
  · rw [List.find?_cons_of_pos _ (by simp [h]), if_pos h]
    rfl
  · rw [List.find?_cons_of_neg _ (by simp [h]), if_neg h]

theorem getObj_filter_ne (b : Bucket) (k0 k : String) (hne : k0 ≠ k) :
    getObj (b.filter (fun p => p.1 != k0)) k = getObj b k := by
  induction b with
  | nil => rfl
  | cons p rest ih =>
    rw [List.filter_cons]
    by_cases h1 : p.1 = k0
    · rw [if_neg (by simp [h1]), ih, getObj_cons, if_neg (by rw [h1]; exact hne)]
    · rw [if_pos (by simp [h1]), getObj_cons, getObj_cons, ih]

theorem getObj_overwrite_ne (b : Bucket) (k0 body k : String) (hne : k0 ≠ k) :
    getObj (b.map (fun p => if p.1 == k0 then (k0, body) else p)) k = getObj b k := by
  induction b with
  | nil => rfl
  | cons p rest ih =>
    rw [List.map_cons]
    by_cases h1 : p.1 = k0
    · have hgp : (if p.1 == k0 then (k0, body) else p) = (k0, body) := by simp [h1]
      rw [hgp, getObj_cons, getObj_cons, if_neg hne, if_neg (by rw [h1]; exact hne), ih]
    · have hgp : (if p.1 == k0 then (k0, body) else p) = p := by simp [h1]
      rw [hgp, getObj_cons, getObj_cons, ih]

theorem getObj_append_ne (b : Bucket) (k0 body k : String) (hne : k0 ≠ k) :
    getObj (b ++ [(k0, body)]) k = getObj b k := by
  induction b with
  | nil =>
    rw [List.nil_append, getObj_cons, if_neg hne]
  | cons p rest ih =>
    rw [List.cons_append, getObj_cons, getObj_cons, ih]

theorem getObj_applyOp_ne (b : Bucket) (op : S3Op) (k : String) (hne : op.key ≠ k) :
    getObj (applyOp b op) k = getObj b k := by
  cases op with
  | upload k0 ct body =>
    have hne0 : k0 ≠ k := hne
    simp only [applyOp]
    by_cases h : b.any (fun p => p.1 == k0)
    · rw [if_pos h]
      exact getObj_overwrite_ne b k0 body k hne0
    · rw [if_neg h]
      exact getObj_append_ne b k0 body k hne0
  | delete k0 =>
    exact getObj_filter_ne b k0 k hne

theorem getObj_applyOps_ne (b : Bucket) (ops : List S3Op) (k : String)
    (h : ∀ op ∈ ops, op.key ≠ k) :
    getObj (applyOps b ops) k = getObj b k := by
  induction ops generalizing b with
  | nil => rfl
  | cons op rest ih =>
    show getObj (applyOps (applyOp b op) rest) k = getObj b k
    rw [ih (applyOp b op) (fun o ho => h o (List.mem_cons_of_mem op ho))]
    exact getObj_applyOp_ne b op k (h op (List.mem_cons_self op rest))

/-! ## Claims -/

/-- C1, counterexample. The filename "a1_b.csv" carries the `.csv` suffix and
violates the `<digit>_<key>.csv` pattern (it starts with a letter), yet key
extraction succeeds with "b" — the search finds the infix "1_b.csv" — instead
of raising a fatal error. Moreover "1_a.csv.csv" is of the form
`<digit>_<key>.csv` with key "a.csv", yet extraction returns "a", not the key
exactly, because the non-greedy group stops at the first ".csv". -/
theorem C1_counterexample :
    pathSuffix "a1_b.csv" = ".csv" ∧
    wellFormedCsvName "a1_b.csv" = false ∧
    extractKey "a1_b.csv" = some "b" ∧
    wellFormedCsvName "1_a.csv.csv" = true ∧
    extractKey "1_a.csv.csv" = some "a" := by
  decide

/-- C1, amended. For a filename `<digit>_<key>.csv` whose key contains neither
a newline nor ".csv" as an infix, key extraction returns the key exactly; and
a csv file on which the search fails (no digit-underscore infix followed by
".csv") is fatal for the run: the renderer list construction returns the error
value instead of skipping the file. -/
theorem C1_renderer_key_extraction :
    (∀ (d : Char) (key : List Char), d.isDigit = true → noCsvSub key = true →
      '\n' ∉ key →
      extractKey (String.mk (d :: '_' :: (key ++ ['.', 'c', 's', 'v']))) =
        some (String.mk key)) ∧
    (∀ (data : List DataFile) (f : DataFile), f ∈ sortedCsvFiles data →
      extractKey f.name = none → rendererLists data = none) := by
  constructor
  · intro d key hd h1 h2
    show (searchKey (d :: '_' :: (key ++ ['.', 'c', 's', 'v']))).map String.mk = _
    have hm : matchAt (d :: '_' :: (key ++ ['.', 'c', 's', 'v'])) = some key := by
      simp only [matchAt]
      rw [if_pos hd]
      exact csvGroup_append key [] h1 h2
    unfold searchKey
    rw [hm]
    rfl
  · intro data f hf hk
    apply buildLists_none _ f hf
    unfold categoryOf
    rw [hk]
    rfl

/-- C1, witness for the amended theorem at the key "learning_resources" and at
a matchless filename "notes.csv". -/
theorem C1_renderer_key_extraction_witness :
    extractKey (String.mk ('1' :: '_' :: ("learning_resources".data ++ ['.', 'c', 's', 'v']))) =
      some (String.mk "learning_resources".data) ∧
    rendererLists [⟨"notes.csv", []⟩] = none :=
  ⟨C1_renderer_key_extraction.1 '1' "learning_resources".data (by decide) (by decide)
      (by decide),
   C1_renderer_key_extraction.2 [⟨"notes.csv", []⟩] ⟨"notes.csv", []⟩ (by decide) (by decide)⟩

/-- C2. With the distinct sheet titles that the spreadsheet service guarantees,
one run of the fetcher produces exactly one csv file per sheet, in sheet
order, each named `title + ".csv"` and holding that sheet's values. -/
theorem C2_fetcher_one_file_per_sheet (wb : List Sheet)
    (h : (wb.map Sheet.title).Nodup) :
    download_sheets wb = wb.map (fun ws => ⟨ws.title ++ ".csv", ws.values⟩) ∧
    (download_sheets wb).length = wb.length := by
  have hgo := download_sheets_go wb [] (by intro ws _ f hf; cases hf) h
  rw [List.nil_append] at hgo
  have hgo2 : download_sheets wb = wb.map (fun ws => ⟨ws.title ++ ".csv", ws.values⟩) := hgo
  exact ⟨hgo2, by rw [hgo2, List.length_map]⟩

/-- C2, witness at a two-sheet workbook. -/
theorem C2_fetcher_one_file_per_sheet_witness :
    download_sheets [⟨"1_learning_resources", [["t"]]⟩, ⟨"2_health", []⟩] =
      ([⟨"1_learning_resources", [["t"]]⟩, ⟨"2_health", []⟩] : List Sheet).map
        (fun ws => ⟨ws.title ++ ".csv", ws.values⟩) ∧
    (download_sheets [⟨"1_learning_resources", [["t"]]⟩, ⟨"2_health", []⟩]).length = 2 :=
  C2_fetcher_one_file_per_sheet _ (by decide)

/-- C7. A key present in the fixed lookup table resolves to its mapped label
(all four entries are checked); a key absent from the table resolves to itself
unchanged; and every category built by the renderer carries exactly this
lookup of its raw key as its display label. -/
theorem C7_display_labels (k : String) (hk : ∀ p ∈ LISTS_MAPPING, p.1 ≠ k) :
    lookupLabel k = k ∧
    lookupLabel "learning_resources" = "&#128218; Learning Resources" ∧
    lookupLabel "productivity" = "&#128187; Productivity" ∧
    lookupLabel "health" = "&#x1F3CB; Health & Fitness" ∧
    lookupLabel "entertainment" = "&#x1F4FA; Entertainment" ∧
    ∀ (f : DataFile) (c : Category), categoryOf f = some c →
      c.label = lookupLabel c.key := by
  refine ⟨dictGet_not_mem _ _ _ hk, by decide, by decide, by decide, by decide, ?_⟩
  intro f c hc
  unfold categoryOf at hc
  cases he : extractKey f.name with
  | none => rw [he] at hc; cases hc
  | some key =>
    rw [he] at hc
    simp only [Option.map_some', Option.some.injEq] at hc
    rw [← hc]

/-- C7, witness at the unknown key "misc". -/
theorem C7_display_labels_witness :
    lookupLabel "misc" = "misc" ∧
    lookupLabel "learning_resources" = "&#128218; Learning Resources" ∧
    lookupLabel "productivity" = "&#128187; Productivity" ∧
    lookupLabel "health" = "&#x1F3CB; Health & Fitness" ∧
    lookupLabel "entertainment" = "&#x1F4FA; Entertainment" ∧
    ∀ (f : DataFile) (c : Category), categoryOf f = some c →
      c.label = lookupLabel c.key :=
  C7_display_labels "misc" (by decide)

/-- C10. The template-copy loop tests `is_dir()` first, so a directory entry
of the template directory is copied into the site whatever its name — the
`template.html` / `.DS_Store` exclusion sits in the `elif` branch and only
applies to non-directory entries. -/
theorem C10_directories_always_copied (tmpl : List FsEntry) (n : String)
    (es : List FsEntry) (h : FsEntry.dir n es ∈ tmpl) :
    FsEntry.dir n es ∈ copyTemplateEntries tmpl := by
  induction tmpl with
  | nil => cases h
  | cons e rest ih =>
    rcases List.mem_cons.mp h with heq | hmem
    · rw [← heq]
      unfold copyTemplateEntries
      exact List.mem_cons_self _ _
    · cases e with
      | dir m fs =>
        unfold copyTemplateEntries
        exact List.mem_cons_of_mem _ (ih hmem)
      | file m c =>
        unfold copyTemplateEntries
        by_cases hm : (m != "template.html" && m != ".DS_Store") = true
        · rw [if_pos hm]
          exact List.mem_cons_of_mem _ (ih hmem)
        · rw [if_neg hm]
          exact ih hmem

/-- C10, witness: a directory named `.DS_Store` — a name on the ignore
list — is still copied. -/
theorem C10_directories_always_copied_witness :
    FsEntry.dir ".DS_Store" [] ∈ copyTemplateEntries [FsEntry.dir ".DS_Store" []] :=
  C10_directories_always_copied [FsEntry.dir ".DS_Store" []] ".DS_Store" [] (by decide)

/-- C3. The renderer presents the categories in exactly the ascending
lexicographic order of the source csv filenames: the file list it iterates
over is a permutation of the csv files of the data directory whose name
sequence is sorted by the string order, and the i-th category is built from
the i-th file of that sorted sequence. -/
theorem C3_category_order (data : List DataFile) (ls : List Category)
    (h : rendererLists data = some ls) :
    List.Sorted (· ≤ ·) ((sortedCsvFiles data).map DataFile.name) ∧
    (sortedCsvFiles data).Perm (csvFiles data) ∧
    ls.length = (sortedCsvFiles data).length ∧
    ∀ i (hi : i < (sortedCsvFiles data).length) (hj : i < ls.length),
      categoryOf ((sortedCsvFiles data).get ⟨i, hi⟩) = some (ls.get ⟨i, hj⟩) := by
  obtain ⟨hlen, hidx⟩ := buildLists_some _ _ h
  refine ⟨?_, List.perm_insertionSort _ _, hlen, hidx⟩
  haveI htot : IsTotal DataFile (fun a b => leChars a.name.data b.name.data = true) := by
    constructor
    intro a b
    rcases le_total a.name b.name with hle | hle
    · exact Or.inl ((leChars_iff_str _ _).mpr hle)
    · exact Or.inr ((leChars_iff_str _ _).mpr hle)
  haveI htr : IsTrans DataFile (fun a b => leChars a.name.data b.name.data = true) := by
    constructor
    intro a b c hab hbc
    exact (leChars_iff_str _ _).mpr
      (le_trans ((leChars_iff_str _ _).mp hab) ((leChars_iff_str _ _).mp hbc))
  have hs : List.Pairwise (fun a b : DataFile => leChars a.name.data b.name.data = true)
      (sortedCsvFiles data) :=
    List.sorted_insertionSort (fun a b : DataFile => leChars a.name.data b.name.data = true)
      (csvFiles data)
  exact hs.map DataFile.name (fun a b hab => (leChars_iff_str _ _).mp hab)

/-- C3, witness at a two-file data directory given out of order. -/
theorem C3_category_order_witness :
    List.Sorted (· ≤ ·)
      ((sortedCsvFiles [⟨"2_health.csv", [["title"], ["Yoga"]]⟩,
          ⟨"1_learning_resources.csv", [["title"], ["Course"]]⟩]).map DataFile.name) ∧
    (sortedCsvFiles [⟨"2_health.csv", [["title"], ["Yoga"]]⟩,
        ⟨"1_learning_resources.csv", [["title"], ["Course"]]⟩]).Perm
      (csvFiles [⟨"2_health.csv", [["title"], ["Yoga"]]⟩,
        ⟨"1_learning_resources.csv", [["title"], ["Course"]]⟩]) ∧
    ([⟨"learning_resources", "&#128218; Learning Resources", [[("title", "Course")]]⟩,
        ⟨"health", "&#x1F3CB; Health & Fitness", [[("title", "Yoga")]]⟩] :
          List Category).length =
      (sortedCsvFiles [⟨"2_health.csv", [["title"], ["Yoga"]]⟩,
        ⟨"1_learning_resources.csv", [["title"], ["Course"]]⟩]).length ∧
    ∀ i (hi : i < (sortedCsvFiles [⟨"2_health.csv", [["title"], ["Yoga"]]⟩,
          ⟨"1_learning_resources.csv", [["title"], ["Course"]]⟩]).length)
      (hj : i < ([⟨"learning_resources", "&#128218; Learning Resources",
          [[("title", "Course")]]⟩,
        ⟨"health", "&#x1F3CB; Health & Fitness", [[("title", "Yoga")]]⟩] :
          List Category).length),
      categoryOf ((sortedCsvFiles [⟨"2_health.csv", [["title"], ["Yoga"]]⟩,
          ⟨"1_learning_resources.csv", [["title"], ["Course"]]⟩]).get ⟨i, hi⟩) =
        some (([⟨"learning_resources", "&#128218; Learning Resources",
            [[("title", "Course")]]⟩,
          ⟨"health", "&#x1F3CB; Health & Fitness", [[("title", "Yoga")]]⟩] :
            List Category).get ⟨i, hj⟩) :=
  C3_category_order
    [⟨"2_health.csv", [["title"], ["Yoga"]]⟩,
      ⟨"1_learning_resources.csv", [["title"], ["Course"]]⟩]
    [⟨"learning_resources", "&#128218; Learning Resources", [[("title", "Course")]]⟩,
      ⟨"health", "&#x1F3CB; Health & Fitness", [[("title", "Yoga")]]⟩]
    (by decide)

/-- C4. The orchestrator runs fetch, render, publish strictly in that order: a
fetch error is the whole result and nothing is rendered or uploaded; a render
error is the whole result and nothing is uploaded; only when both earlier
stages succeed is the rendered site uploaded, and the uploads are computed
from exactly the site that the render of the fetched data produced. -/
theorem C4_orchestrator_sequencing (fetch : Except String (List Sheet))
    (render : RenderFn) (tmpl : List FsEntry) (currDate : String) :
    (∀ e, fetch = .error e →
      build_site fetch render tmpl currDate = .error e) ∧
    (∀ wb e, fetch = .ok wb →
      generate_site render tmpl (download_sheets wb) currDate = .error e →
      build_site fetch render tmpl currDate = .error e) ∧
    (∀ wb site, fetch = .ok wb →
      generate_site render tmpl (download_sheets wb) currDate = .ok site →
      build_site fetch render tmpl currDate =
        .ok (site, upload_recursively_to_s3 site "")) := by
  refine ⟨?_, ?_, ?_⟩
  · intro e he
    subst he
    rfl
  · intro wb e hw hg
    subst hw
    simp only [build_site]
    rw [hg]
  · intro wb site hw hg
    subst hw
    simp only [build_site]
    rw [hg]

/-- C4, witness: a failed fetch aborts everything; with a fetched workbook but
no template document the render error is the result; with both stages
succeeding the uploads are those of the rendered site. -/
theorem C4_orchestrator_sequencing_witness :
    build_site (.error "fetch failed") (fun _ _ _ d _ => d)
      [FsEntry.file "template.html" "T"] "May 1, 2020" = .error "fetch failed" ∧
    build_site (.ok [⟨"1_health", []⟩]) (fun _ _ _ d _ => d) [] "May 1, 2020" =
      .error "TemplateNotFound: template.html" ∧
    build_site (.ok [⟨"1_health", []⟩]) (fun _ _ _ d _ => d)
      [FsEntry.file "template.html" "T"] "May 1, 2020" =
      .ok ([FsEntry.file "index.html" "May 1, 2020"],
        upload_recursively_to_s3 [FsEntry.file "index.html" "May 1, 2020"] "") :=
  ⟨(C4_orchestrator_sequencing (.error "fetch failed") (fun _ _ _ d _ => d)
      [FsEntry.file "template.html" "T"] "May 1, 2020").1 "fetch failed" rfl,
   (C4_orchestrator_sequencing (.ok [⟨"1_health", []⟩]) (fun _ _ _ d _ => d)
      [] "May 1, 2020").2.1 [⟨"1_health", []⟩] "TemplateNotFound: template.html" rfl rfl,
   (C4_orchestrator_sequencing (.ok [⟨"1_health", []⟩]) (fun _ _ _ d _ => d)
      [FsEntry.file "template.html" "T"] "May 1, 2020").2.2 [⟨"1_health", []⟩]
      [FsEntry.file "index.html" "May 1, 2020"] rfl rfl⟩

/-- C5. The uploads of a publisher run are exactly the files under the site
root whose name is not on the ignore list — a file is uploaded if and only if
its name avoids `IGNORED_FILES`, at every directory depth — and each upload
key is the file's path relative to the root: the accumulated directory prefix
followed by the filename. -/
theorem C5_publisher_upload_set (tree : List FsEntry) (pre : String) :
    upload_recursively_to_s3 tree pre =
      ((filesUnderList tree pre).filter (fun f => decide (f.2.1 ∉ IGNORED_FILES))).map
        (fun f => S3Op.upload f.1 (contentTypeFor f.2.1) f.2.2) :=
  uploadEntries_eq tree pre

/-- C6. Every upload carries the content type that the fixed table assigns to
the extension of the very file being uploaded: the op's key and body identify
the file — its relative path and content — and the op's content type is the
table lookup of that file's own name. The four table entries map as stated,
and any extension outside the table falls back to the generic binary type. -/
theorem C6_content_types (tree : List FsEntry) (pre ext : String)
    (hext : ∀ p ∈ CONTENT_TYPE_MAPPING, p.1 ≠ ext) :
    (∀ op ∈ upload_recursively_to_s3 tree pre, ∀ k ct b, op = S3Op.upload k ct b →
      ∃ n, (k, n, b) ∈ filesUnderList tree pre ∧
        ct = dictGet CONTENT_TYPE_MAPPING (pathSuffix n) "application/octet-stream") ∧
    contentTypeFor "site.css" = "text/css" ∧
    contentTypeFor "index.html" = "text/html" ∧
    contentTypeFor "photo.jpg" = "image/jpeg" ∧
    contentTypeFor "sitemap.xml" = "text/xml" ∧
    dictGet CONTENT_TYPE_MAPPING ext "application/octet-stream" =
      "application/octet-stream" := by
  refine ⟨?_, by decide, by decide, by decide, by decide, dictGet_not_mem _ _ _ hext⟩
  intro op hop k ct b heq
  have hop2 : op ∈ ((filesUnderList tree pre).filter
      (fun f => decide (f.2.1 ∉ IGNORED_FILES))).map
        (fun f => S3Op.upload f.1 (contentTypeFor f.2.1) f.2.2) := by
    rw [← uploadEntries_eq]
    exact hop
  obtain ⟨f, hf, hfe⟩ := List.mem_map.mp hop2
  rw [heq] at hfe
  simp only [S3Op.upload.injEq] at hfe
  refine ⟨f.2.1, ?_, ?_⟩
  · rw [← hfe.1, ← hfe.2.2]
    exact List.mem_of_mem_filter hf
  · rw [← hfe.2.1]
    rfl

/-- C6, witness: a publisher run over one file with the unmapped extension
".png". -/
theorem C6_content_types_witness :
    (∀ op ∈ upload_recursively_to_s3 [FsEntry.file "logo.png" "P"] "",
      ∀ k ct b, op = S3Op.upload k ct b →
      ∃ n, (k, n, b) ∈ filesUnderList [FsEntry.file "logo.png" "P"] "" ∧
        ct = dictGet CONTENT_TYPE_MAPPING (pathSuffix n) "application/octet-stream") ∧
    contentTypeFor "site.css" = "text/css" ∧
    contentTypeFor "index.html" = "text/html" ∧
    contentTypeFor "photo.jpg" = "image/jpeg" ∧
    contentTypeFor "sitemap.xml" = "text/xml" ∧
    dictGet CONTENT_TYPE_MAPPING ".png" "application/octet-stream" =
      "application/octet-stream" :=
  C6_content_types [FsEntry.file "logo.png" "P"] "" ".png" (by decide)

/-- C8. A publisher run is additive: every storage operation it issues is an
upload (create or overwrite), never a delete, and a remote object whose key is
not among the uploaded keys holds exactly the same body after the run as
before it. -/
theorem C8_publish_never_deletes (tree : List FsEntry) (pre : String) (b : Bucket)
    (k : String)
    (hk : ∀ op ∈ upload_recursively_to_s3 tree pre, op.key ≠ k) :
    (∀ op ∈ upload_recursively_to_s3 tree pre,
      ∃ key ct body, op = S3Op.upload key ct body) ∧
    getObj (applyOps b (upload_recursively_to_s3 tree pre)) k = getObj b k := by
  constructor
  · intro op hop
    have hop2 : op ∈ ((filesUnderList tree pre).filter
        (fun f => decide (f.2.1 ∉ IGNORED_FILES))).map
          (fun f => S3Op.upload f.1 (contentTypeFor f.2.1) f.2.2) := by
      rw [← uploadEntries_eq]
      exact hop
    obtain ⟨f, _, hfe⟩ := List.mem_map.mp hop2
    exact ⟨f.1, contentTypeFor f.2.1, f.2.2, hfe.symm⟩
  · exact getObj_applyOps_ne b _ k hk

/-- C8, witness: uploading `index.html` leaves the unrelated remote object
`old.html` untouched. -/
theorem C8_publish_never_deletes_witness :
    (∀ op ∈ upload_recursively_to_s3 [FsEntry.file "index.html" "X"] "",
      ∃ key ct body, op = S3Op.upload key ct body) ∧
    getObj (applyOps [("old.html", "O")]
        (upload_recursively_to_s3 [FsEntry.file "index.html" "X"] ""))
      "old.html" = getObj [("old.html", "O")] "old.html" :=
  C8_publish_never_deletes [FsEntry.file "index.html" "X"] "" [("old.html", "O")]
    "old.html" (by decide)

/-- C9. Rendering is deterministic up to the date stamp: two successful runs
of the renderer over the same template and data produce site trees that agree
everywhere except in the date argument handed to the template render call, so
with a fixed clock (equal date strings) the outputs are byte-identical. -/
theorem C9_render_determinism (render : RenderFn) (tmpl : List FsEntry)
    (data : List DataFile) (d1 d2 : String) (s1 s2 : List FsEntry)
    (h1 : generate_site render tmpl data d1 = .ok s1)
    (h2 : generate_site render tmpl data d2 = .ok s2) :
    (d1 = d2 → s1 = s2) ∧
    ∃ t ls, getTemplate tmpl = some t ∧ rendererLists data = some ls ∧
      s1 = copyTemplateEntries tmpl ++
        [FsEntry.file "index.html" (render t ls INTRO_TEXT d1 META_CONTENT)] ∧
      s2 = copyTemplateEntries tmpl ++
        [FsEntry.file "index.html" (render t ls INTRO_TEXT d2 META_CONTENT)] := by
  unfold generate_site at h1 h2
  cases ht : getTemplate tmpl with
  | none => rw [ht] at h1; cases h1
  | some t =>
    rw [ht] at h1 h2
    cases hl : rendererLists data with
    | none => rw [hl] at h1; cases h1
    | some ls =>
      rw [hl] at h1 h2
      injection h1 with h1
      injection h2 with h2
      refine ⟨fun hd => by rw [← h1, ← h2, hd], t, ls, rfl, rfl, h1.symm, h2.symm⟩

/-- C9, witness: two renders of the same one-file data directory at the same
date produce the same `index.html`. -/
theorem C9_render_determinism_witness :
    ("April 2, 2020" = "April 2, 2020" →
      ([FsEntry.file "index.html" "April 2, 2020"] : List FsEntry) =
        [FsEntry.file "index.html" "April 2, 2020"]) ∧
    ∃ t ls, getTemplate [FsEntry.file "template.html" "T"] = some t ∧
      rendererLists [⟨"1_health.csv", []⟩] = some ls ∧
      ([FsEntry.file "index.html" "April 2, 2020"] : List FsEntry) =
        copyTemplateEntries [FsEntry.file "template.html" "T"] ++
          [FsEntry.file "index.html"
            ((fun _ _ _ d _ => d : RenderFn) t ls INTRO_TEXT "April 2, 2020" META_CONTENT)] ∧
      ([FsEntry.file "index.html" "April 2, 2020"] : List FsEntry) =
        copyTemplateEntries [FsEntry.file "template.html" "T"] ++
          [FsEntry.file "index.html"
            ((fun _ _ _ d _ => d : RenderFn) t ls INTRO_TEXT "April 2, 2020" META_CONTENT)] :=
  C9_render_determinism (fun _ _ _ d _ => d) [FsEntry.file "template.html" "T"]
    [⟨"1_health.csv", []⟩] "April 2, 2020" "April 2, 2020"
    [FsEntry.file "index.html" "April 2, 2020"]
    [FsEntry.file "index.html" "April 2, 2020"] rfl rfl

end StayHome
